import Mathlib

/-!
Verification development for `src/lodz_alcohol_map_v6.py`.

The script geocodes a list of addresses (with a CSV cache and two fallback
providers), joins the points to neighborhood polygons, and renders an HTML
map. This file gives a shallow embedding of the script's own logic:

* `normalize_address` (lines 27-32): the regex pipeline on character lists,
  with Python `re.sub` semantics (leftmost, non-overlapping, greedy with the
  backtracking the concrete patterns need).
* `geocode_addresses` (lines 34-62), `_save_cache` (line 64) and the cache
  loading (lines 37-39): the cache is an association list keyed by the raw
  address string; the two providers are oracle functions
  `String → Option (ℚ × ℚ)`, and every provider call is recorded in a trace
  so that call order and rate of calls per address are provable.
* `to_gdf` (lines 67-68) and `spatial_join` (lines 70-72): rows whose
  lat/lon is missing (`none`, standing for NaN) get no geometry and are
  dropped; the join is a left join against polygon membership predicates.
* `build_sidebar` (lines 77-91) and the save in `build_map` (line 184) for
  the claims about the HTML output.
* the geocode-or-skip branch of `main` (lines 198-200).

Machine-level conventions: pandas/float NaN is modelled as `none : Option ℚ`
(the script only ever compares coordinates with `pd.isna`); provider results
are `Option (ℚ × ℚ)` (geopy returns a location object or `None`, and `or`
tests truthiness). String-scanning functions that restart after a removed
match use an explicit fuel argument equal to the input length (each step
consumes at least one character, so the fuel never runs out); this keeps
every definition structurally recursive and kernel-computable.
-/

namespace LodzMap

/-! ## Character classes (Python `re` on `str`) -/

/-- Python regex `\w` / word characters for `\b`: letters, digits and the
underscore; non-ASCII characters are treated as word characters (in the
script's inputs all non-ASCII characters are Polish letters, which Python
counts as word characters). -/
def isWordChar (c : Char) : Bool := c.isAlphanum || c == '_' || decide (128 ≤ c.toNat)

/-- Python regex `\s` (and `str.strip`'s default set) on the ASCII range. -/
def isSpaceChar (c : Char) : Bool :=
  c == ' ' || c == '\t' || c == '\n' || c == '\r' || c == '\x0b' || c == '\x0c'

/-- Python `str.strip()`: drop leading and trailing whitespace. -/
def stripChars (l : List Char) : List Char :=
  ((l.dropWhile isSpaceChar).reverse.dropWhile isSpaceChar).reverse

/-! ## `re.sub(r"\bul\.?", "", a, flags=re.I)` (line 28) -/

/-- Try to match `ul\.?` (case-insensitive) at the current position; on
success return the remainder of the string after the match together with the
word-character status of the last matched character (needed for the `\b` test
of a later match attempt). The caller checks the `\b` on the left. -/
def tryUl : List Char → Option (List Char × Bool)
  | c1 :: c2 :: rest =>
    if c1.toLower == 'u' && c2.toLower == 'l' then
      match rest with
      | '.' :: rest2 => some (rest2, false)
      | _ => some (rest, true)
    else none
  | _ => none

/-- Scanner for `re.sub(r"\bul\.?", "", ·)`: `pw` says whether the previous
character (in the original string) is a word character, so that `\b` holds
at the current position iff `pw = false` (the pattern starts with a letter).
`fuel` only forces structural recursion; `fuel = length` always suffices. -/
def subUlGo : Nat → Bool → List Char → List Char
  | 0, _, l => l
  | _ + 1, _, [] => []
  | fuel + 1, pw, c :: cs =>
    if pw then c :: subUlGo fuel (isWordChar c) cs
    else
      match tryUl (c :: cs) with
      | some rl => subUlGo fuel rl.2 rl.1
      | none => c :: subUlGo fuel (isWordChar c) cs

def subUl (l : List Char) : List Char := subUlGo l.length false l

/-! ## `re.sub(r"\bKEY\.?\s*\S+", "", a, flags=re.I)` for KEY ∈ {lok, paw} (lines 29-30) -/

/-- Word-character status of the last character of a matched token. -/
def lastIsWord (tok : List Char) : Bool := (tok.getLast?.map isWordChar).getD false

/-- Try to match `KEY\.?\s*\S+` (case-insensitive, `KEY = k1 k2 k3`) at the
current position. Semantics of the greedy/backtracking regex:

* after `KEY` and a literal `.`, if some non-space character follows the run
  of whitespace, `\S+` eats that token greedily;
* if only whitespace (or nothing) follows the `.`, the engine backtracks:
  `\.?` matches empty and `\S+` matches the dot itself;
* with no dot, the match succeeds iff a non-space character follows the run
  of whitespace, and `\S+` eats that token.

Returns the remainder and the word-status of the last matched character. -/
def tryKey (k1 k2 k3 : Char) : List Char → Option (List Char × Bool)
  | c1 :: c2 :: c3 :: r =>
    if c1.toLower == k1 && c2.toLower == k2 && c3.toLower == k3 then
      match r with
      | '.' :: r2 =>
        match r2.dropWhile isSpaceChar with
        | [] => some (r2, false)
        | rest2 =>
          some (rest2.dropWhile (fun c => !isSpaceChar c),
                lastIsWord (rest2.takeWhile (fun c => !isSpaceChar c)))
      | _ =>
        match r.dropWhile isSpaceChar with
        | [] => none
        | rest2 =>
          some (rest2.dropWhile (fun c => !isSpaceChar c),
                lastIsWord (rest2.takeWhile (fun c => !isSpaceChar c)))
    else none
  | _ => none

/-- Scanner for `re.sub(r"\bKEY\.?\s*\S+", "", ·)`, as in `subUlGo`. -/
def subKeyGo (k1 k2 k3 : Char) : Nat → Bool → List Char → List Char
  | 0, _, l => l
  | _ + 1, _, [] => []
  | fuel + 1, pw, c :: cs =>
    if pw then c :: subKeyGo k1 k2 k3 fuel (isWordChar c) cs
    else
      match tryKey k1 k2 k3 (c :: cs) with
      | some rl => subKeyGo k1 k2 k3 fuel rl.2 rl.1
      | none => c :: subKeyGo k1 k2 k3 fuel (isWordChar c) cs

def subKey (k1 k2 k3 : Char) (l : List Char) : List Char := subKeyGo k1 k2 k3 l.length false l

/-! ## `re.sub(r"\s+", " ", a)` (line 31) -/

/-- Replace each maximal whitespace run by a single space. -/
def collapseWs : List Char → List Char
  | [] => []
  | [c] => if isSpaceChar c then [' '] else [c]
  | c1 :: c2 :: r =>
    if isSpaceChar c1 && isSpaceChar c2 then collapseWs (c2 :: r)
    else (if isSpaceChar c1 then ' ' else c1) :: collapseWs (c2 :: r)

/-! ## `unidecode` (line 32) -/

/-- Model of the `unidecode` library on this script's input alphabet: ASCII
characters pass through unchanged (the library is the identity on ASCII);
Polish diacritics transliterate to their base letters; any other non-ASCII
character maps to the empty string (the library's behaviour for unmapped
characters). -/
def unidecodeChar (c : Char) : List Char :=
  if c.toNat < 128 then [c]
  else if c == 'ą' then ['a'] else if c == 'ć' then ['c']
  else if c == 'ę' then ['e'] else if c == 'ł' then ['l']
  else if c == 'ń' then ['n'] else if c == 'ó' then ['o']
  else if c == 'ś' then ['s'] else if c == 'ź' then ['z']
  else if c == 'ż' then ['z']
  else if c == 'Ą' then ['A'] else if c == 'Ć' then ['C']
  else if c == 'Ę' then ['E'] else if c == 'Ł' then ['L']
  else if c == 'Ń' then ['N'] else if c == 'Ó' then ['O']
  else if c == 'Ś' then ['S'] else if c == 'Ź' then ['Z']
  else if c == 'Ż' then ['Z']
  else []

def unidecodeList (l : List Char) : List Char := l.flatMap unidecodeChar

/-! ## `normalize_address` (lines 27-32) -/

/-- Embedding of `normalize_address`:
`a = re.sub(r"\bul\.?", "", addr.strip(), flags=re.I)`;
`a = re.sub(r"\blok\.?\s*\S+", "", a, flags=re.I)`;
`a = re.sub(r"\bpaw\.?\s*\S+", "", a, flags=re.I)`;
`a = re.sub(r"\s+", " ", a)`; `return unidecode(a).strip()`. -/
def normalize_address (addr : List Char) : List Char :=
  stripChars (unidecodeList (collapseWs
    (subKey 'p' 'a' 'w' (subKey 'l' 'o' 'k' (subUl (stripChars addr))))))

/-! ## `re.sub(r"\s+\d+.*$", "", addr).strip()` (line 53) -/

/-- Try to match `\s+\d+.*$` at the current position: at least one whitespace
character, then at least one digit, then `.*$`. `.` does not match a newline
and `$` matches at the end of the string or just before a final newline, so
`.*$` succeeds iff the rest of the string contains no newline other than a
final one; the final newline, if any, is left unmatched. Returns the
unmatched tail on success. Backtracking cannot rescue a failed greedy
attempt here: shortening `\s+` puts a whitespace character under `\d+`, and
shortening `\d+` leaves the newline obstruction unchanged. -/
def tryNumTail (l : List Char) : Option (List Char) :=
  let r1 := l.dropWhile isSpaceChar
  if l.takeWhile isSpaceChar = ([] : List Char) then none
  else if r1.takeWhile Char.isDigit = ([] : List Char) then none
  else
    let tail := (r1.dropWhile Char.isDigit).dropWhile (fun c => !(c == '\n'))
    if tail = ([] : List Char) then some tail
    else if tail = ['\n'] then some tail
    else none

/-- Scanner for `re.sub(r"\s+\d+.*$", "", ·)`. After a successful match the
remainder is `[]` or `['\n']`, in which no further match can start, so the
remainder is emitted as-is. -/
def subNumTail : List Char → List Char
  | [] => []
  | c :: cs =>
    match tryNumTail (c :: cs) with
    | some tail => tail
    | none => c :: subNumTail cs

/-- Line 53: `street_only = re.sub(r"\s+\d+.*$", "", addr).strip()`. -/
def street_only (addr : List Char) : List Char := stripChars (subNumTail addr)

/-! ## The geocoding cache (lines 34-64)

A cached value is a `(lat, lon)` pair where `none` stands for `NaN`. The
in-memory cache is a Python dict, modelled as an association list with
dict semantics: an update keeps the entry's position, a new key is appended
at the end, keys are unique as long as they were unique before. -/

abbrev Coord := Option ℚ × Option ℚ

abbrev Cache := List (String × Coord)

/-- Dict lookup `cache[addr]` / `addr in cache` (first entry with the key;
keys are unique in every cache the script builds). -/
def cacheLookup : Cache → String → Option Coord
  | [], _ => none
  | (k, w) :: rest, a => if k = a then some w else cacheLookup rest a

/-- Dict assignment `cache[addr] = v` (line 56): replace in place, or append
a new entry. -/
def cacheInsert : Cache → String → Coord → Cache
  | [], a, v => [(a, v)]
  | (k, w) :: rest, a, v =>
    if k = a then (k, v) :: rest else (k, w) :: cacheInsert rest a v

/-- Line 48: `addr in cache and not pd.isna(cache[addr][0])`. -/
def cachedOk (c : Cache) (a : String) : Bool :=
  match cacheLookup c a with
  | some (some _, _) => true
  | _ => false

/-- One row of the cache CSV written by `_save_cache` (line 64): columns
`address`, `lat`, `lon`, `timestamp_iso`. -/
structure SaveRow where
  address : String
  lat : Option ℚ
  lon : Option ℚ
  timestamp_iso : String
  deriving DecidableEq

/-- `_save_cache` (line 64): one CSV row per dict entry, in dict order; the
timestamp is the same `time.strftime` value for every row of one save. -/
def save_cache (c : Cache) (ts : String) : List SaveRow :=
  c.map (fun kv => ⟨kv.1, kv.2.1, kv.2.2, ts⟩)

/-- Cache loading (lines 37-39):
`cache = {r['address']: (r['lat'], r['lon']) for _, r in cdf.iterrows()}` —
a dict built row by row, keyed by the raw `address` column. -/
def load_cache (rows : List SaveRow) : Cache :=
  rows.foldl (fun c r => cacheInsert c r.address (r.lat, r.lon)) []

/-! ## Providers and one geocoding step (lines 41-56) -/

/-- The two geocoding providers, in the script's construction order
(lines 41-44): Nominatim (OSM) and ArcGIS. -/
inductive Prov
  | osm
  | arc
  deriving DecidableEq

/-- Line 50: `q_full = f"{normalize_address(addr)}, {city_hint}"`. -/
def qFull (city addr : String) : String :=
  String.mk (normalize_address addr.data) ++ ", " ++ city

/-- Line 54: `q_street = f"{normalize_address(street_only)}, {city_hint}"`
with `street_only` from line 53. -/
def qStreet (city addr : String) : String :=
  String.mk (normalize_address (street_only addr.data)) ++ ", " ++ city

/-- `geo_osm(q) or geo_arc(q)` (lines 51 and 55): the OSM provider is always
called; ArcGIS is called only when OSM returns no location (`None` is the
only falsy geopy result). The second component records the provider calls
that were made, in order. -/
def queryProviders (osm arc : String → Option (ℚ × ℚ)) (q : String) :
    Option (ℚ × ℚ) × List (Prov × String) :=
  match osm q with
  | some loc => (some loc, [(Prov.osm, q)])
  | none => (arc q, [(Prov.osm, q), (Prov.arc, q)])

/-- `(loc.latitude, loc.longitude) if loc else (nan, nan)` (line 56). -/
def coordOfLoc : Option (ℚ × ℚ) → Coord
  | some l => (some l.1, some l.2)
  | none => (none, none)

/-- The body of the per-address loop (lines 48-56): skip a cached success;
otherwise query the full address, fall back to the street-only address when
both providers fail, and store the result (or a NaN pair) under the raw
address. Returns the new cache and the provider-call trace of this step. -/
def geocodeOne (osm arc : String → Option (ℚ × ℚ)) (city : String)
    (cache : Cache) (addr : String) : Cache × List (Prov × String) :=
  if cachedOk cache addr then (cache, [])
  else
    let r1 := queryProviders osm arc (qFull city addr)
    match r1.1 with
    | some l => (cacheInsert cache addr (some l.1, some l.2), r1.2)
    | none =>
      let r2 := queryProviders osm arc (qStreet city addr)
      (cacheInsert cache addr (coordOfLoc r2.1), r1.2 ++ r2.2)

/-- The coordinate value lines 50-56 store for an address that is actually
geocoded (not served from the cache). -/
def geocodeResult (osm arc : String → Option (ℚ × ℚ)) (city addr : String) : Coord :=
  match (queryProviders osm arc (qFull city addr)).1 with
  | some l => (some l.1, some l.2)
  | none => coordOfLoc (queryProviders osm arc (qStreet city addr)).1

/-- The loop of line 47 over the unique non-null addresses, threading the
cache and accumulating the provider-call trace. -/
def geocodeFold (osm arc : String → Option (ℚ × ℚ)) (city : String) :
    Cache × List (Prov × String) → List String → Cache × List (Prov × String)
  | acc, [] => acc
  | acc, a :: rest =>
    let r := geocodeOne osm arc city acc.1 a
    geocodeFold osm arc city (r.1, acc.2 ++ r.2) rest

/-- `df[address_col].dropna().unique()` (line 47): unique values in order of
first occurrence. `seen` accumulates the values already emitted. -/
def uniqueFirstAux (seen : List String) : List String → List String
  | [] => []
  | a :: r =>
    if a ∈ seen then uniqueFirstAux seen r else a :: uniqueFirstAux (a :: seen) r

def uniqueFirst (l : List String) : List String := uniqueFirstAux [] l

/-- Lines 60-61: `df['lat'] = df[address_col].map(lambda a: cache.get(a, (nan, nan))[0])`
and the same for `lon`; a `None`/NaN cell in the address column is not a
dict key, so it gets the `(nan, nan)` default. -/
def assignLatLon (c : Cache) (col : List (Option String)) : List Coord :=
  col.map (fun a? =>
    match a? with
    | some a => (cacheLookup c a).getD (none, none)
    | none => (none, none))

/-- `geocode_addresses` (lines 34-62) on the address column of the input
dataframe: iterate over the unique non-null addresses, then assign the lat
and lon columns from the final cache. Returns the final cache (which line 59
saves to the cache file), the provider-call trace, and the `(lat, lon)`
column values, row-aligned with `col`. -/
def geocode_addresses (osm arc : String → Option (ℚ × ℚ)) (city : String)
    (cache0 : Cache) (col : List (Option String)) :
    Cache × List (Prov × String) × List Coord :=
  let r := geocodeFold osm arc city (cache0, []) (uniqueFirst (col.filterMap id))
  (r.1, r.2, assignLatLon r.1 col)

/-! ## `to_gdf` and `spatial_join` (lines 67-72) -/

/-- A dataframe row as `to_gdf` sees it: the raw address cell and the
`lat`/`lon` columns (other columns play no role in the claims). -/
structure PtRow where
  addr : Option String
  lat : Option ℚ
  lon : Option ℚ
  deriving DecidableEq

/-- The rows of the dataframe whose `lat`/`lon` columns were produced by
`geocode_addresses` (row `i` pairs the address cell with the `i`-th assigned
coordinate pair). -/
def mkPtRows (col : List (Option String)) (ll : List Coord) : List PtRow :=
  List.zipWith (fun a v => ⟨a, v.1, v.2⟩) col ll

/-- `to_gdf` (lines 67-68): geometry `Point(lon, lat)` when neither
coordinate is NaN, else no geometry; `dropna(subset=['geometry'])` then
removes exactly the rows without geometry. The result keeps the row together
with its point `(x, y) = (lon, lat)`. -/
def to_gdf (rows : List PtRow) : List (PtRow × (ℚ × ℚ)) :=
  rows.filterMap (fun r =>
    match r.lon, r.lat with
    | some lo, some la => some (r, (lo, la))
    | _, _ => none)

/-- `spatial_join` (lines 70-72): `gpd.sjoin(pts, polys, how='left',
predicate='within')` — every point row is kept; a row gets one output row
per polygon containing it, or a single row with a null name when no polygon
does. A polygon is its name together with its point-membership predicate. -/
def spatial_join (pts : List (PtRow × (ℚ × ℚ)))
    (polys : List (String × ((ℚ × ℚ) → Bool))) :
    List ((PtRow × (ℚ × ℚ)) × Option String) :=
  pts.flatMap (fun p =>
    match polys.filter (fun poly => poly.2 p.2) with
    | [] => [(p, none)]
    | ms => ms.map (fun m => (p, some m.1)))

/-! ## The geocode-or-skip branch of `main` (lines 194-201) -/

/-- Line 200: the city hint constant. -/
def city_hint : String := "Łódź, Polska"

/-- What the geocoding stage of `main` produced: the lat/lon columns used
downstream, the provider calls made, and whether the cache file was read or
written. -/
structure MainGeoResult where
  lat : List (Option ℚ)
  lon : List (Option ℚ)
  trace : List (Prov × String)
  cacheRead : Bool
  cacheWritten : Bool
  deriving DecidableEq

/-- Lines 198-200: `if 'lat' not in df.columns or 'lon' not in df.columns:
df = geocode_addresses(df, 'Adres punktu', 'Łódź, Polska', a.cache)`. When
both columns are present the dataframe is untouched: no provider call, no
cache-file read, no cache-file write. Otherwise `geocode_addresses` runs on
the address column with the loaded cache file (it reads the cache file and,
at line 59, writes it back). -/
def main_geocode_step (osm arc : String → Option (ℚ × ℚ))
    (cacheRows : List SaveRow) (addrCol : List (Option String)) :
    Option (List (Option ℚ)) → Option (List (Option ℚ)) → MainGeoResult
  | some la, some lo => ⟨la, lo, [], false, false⟩
  | _, _ =>
    let r := geocode_addresses osm arc city_hint (load_cache cacheRows) addrCol
    ⟨r.2.2.map Prod.fst, r.2.2.map Prod.snd, r.2.1, true, true⟩

/-! ## `build_sidebar` (lines 77-91) and the file written by `build_map`

The sidebar HTML is the f-string of lines 79-91: a fixed head, one `<tr>`
per neighborhood count, and a fixed tail whose last three lines load the
DataTables stylesheet and two scripts from remote CDNs. The literals are
reproduced exactly (apostrophes written as `\x27`); the tail is split
around the three CDN URLs so that theorems can point at them. -/

/-- One row of the f-string of line 78. -/
def sidebar_row (os : String) (cnt : Int) : List Char :=
  "<tr data-os=\x27".data ++ os.data ++ "\x27><td>".data ++ os.data ++
    "</td><td class=\x27cnt\x27 style=\x27text-align:right\x27>".data ++
    (toString cnt).data ++ "</td></tr>".data

def sidebarHead : String :=
  "<div id=\x27sidebar\x27 style=\x27position:fixed;top:70px;left:10px;width:280px;max-height:80vh;overflow:auto;z-index:999999;background:white;border-radius:8px;padding:10px 14px;box-shadow:0 0 15px rgba(0,0,0,.2);font-size:14px;\x27>\n  <h4 style=\x27margin:0 0 6px 0;\x27>Punkty z alkoholem<br><small>wg osiedli</small></h4>\n  <table id=\x27osTable\x27 class=\x27display\x27 style=\x27width:100%\x27>\n    <thead><tr><th>Osiedle</th><th>Liczba</th></tr></thead>\n    <tbody>"

def urlDataTablesCss : String :=
  "https://cdn.datatables.net/1.13.7/css/jquery.dataTables.min.css"

def urlJquery : String := "https://code.jquery.com/jquery-3.7.0.min.js"

def urlDataTablesJs : String :=
  "https://cdn.datatables.net/1.13.7/js/jquery.dataTables.min.js"

def sidebarTailA : String :=
  "</tbody>\n  </table>\n  <hr>\n  <h4 style=\x27margin:6px 0;\x27>Filtr typu</h4>\n  <div id=\x27typeFilters\x27></div>\n</div>\n<link rel=\x27stylesheet\x27 href=\x27"

def sidebarTailB : String := "\x27>\n<script src=\x27"

def sidebarTailC : String := "\x27></script>\n<script src=\x27"

def sidebarTailD : String := "\x27></script>"

/-- `build_sidebar` (lines 77-91): head, one row per entry of `counts_df`,
tail with the three CDN references. -/
def build_sidebar (counts : List (String × Int)) : List Char :=
  sidebarHead.data ++
    ((counts.flatMap (fun r => sidebar_row r.1 r.2)) ++
      (sidebarTailA.data ++ (urlDataTablesCss.data ++ (sidebarTailB.data ++
        (urlJquery.data ++ (sidebarTailC.data ++
          (urlDataTablesJs.data ++ sidebarTailD.data)))))))

/-- Modelled from the spec: the map-rendering backend is the folium library,
which is not part of this repository; its `Map.save` writes the rendered
HTML to exactly the one path it is given. `build_map` (line 184) calls
`m.save(outfile)` once, so the list of files `build_map` writes is
`[outfile]`. -/
def build_map_files (outfile : String) : List String := [outfile]

/-! ## Substring search (used to state facts about the sidebar HTML) -/

/-- `segAt pat l`: `pat` occurs at the head of `l`. -/
def segAt : List Char → List Char → Bool
  | [], _ => true
  | _ :: _, [] => false
  | a :: as, b :: bs => a == b && segAt as bs

/-- `containsSeg pat l`: `pat` occurs somewhere in `l`. -/
def containsSeg (pat : List Char) : List Char → Bool
  | [] => segAt pat []
  | c :: rest => segAt pat (c :: rest) || containsSeg pat rest

theorem segAt_append_self (pat b : List Char) : segAt pat (pat ++ b) = true := by
  induction pat with
  | nil => rfl
  | cons a as ih => simpa [segAt] using ih

theorem containsSeg_of_segAt {pat l : List Char} (h : segAt pat l = true) :
    containsSeg pat l = true := by
  cases l with
  | nil => simpa [containsSeg] using h
  | cons c rest => simp [containsSeg, h]

theorem containsSeg_append_left {pat m : List Char} (l : List Char)
    (h : containsSeg pat m = true) : containsSeg pat (l ++ m) = true := by
  induction l with
  | nil => simpa using h
  | cons c cs ih =>
    simp only [List.cons_append, containsSeg, Bool.or_eq_true]
    exact Or.inr ih

theorem containsSeg_append_self (pat b : List Char) (l : List Char) :
    containsSeg pat (l ++ (pat ++ b)) = true :=
  containsSeg_append_left l (containsSeg_of_segAt (segAt_append_self pat b))

/-! ## Dictionary lemmas for the cache -/

/-- The key column of a cache. -/
def cacheKeys (c : Cache) : List String := c.map Prod.fst

theorem cacheLookup_insert (c : Cache) (b : String) (v : Coord) (a : String) :
    cacheLookup (cacheInsert c b v) a = if b = a then some v else cacheLookup c a := by
  induction c with
  | nil => simp [cacheInsert, cacheLookup]
  | cons kv rest ih =>
    obtain ⟨k, w⟩ := kv
    simp only [cacheInsert]
    by_cases hkb : k = b
    · simp only [if_pos hkb, cacheLookup]
      by_cases hba : b = a
      · have hka : k = a := hkb.trans hba
        simp [cacheLookup, hka, hba]
      · have hka : ¬k = a := fun h => hba (hkb.symm.trans h)
        simp [cacheLookup, hka, hba]
    · simp only [if_neg hkb, cacheLookup, ih]
      by_cases hka : k = a
      · have hba : ¬b = a := fun h => hkb (hka.trans h.symm)
        simp [cacheLookup, hka, hba]
      · simp [cacheLookup, hka]

theorem cacheKeys_insert (c : Cache) (b : String) (v : Coord) :
    cacheKeys (cacheInsert c b v) =
      if b ∈ cacheKeys c then cacheKeys c else cacheKeys c ++ [b] := by
  induction c with
  | nil => simp [cacheInsert, cacheKeys]
  | cons kv rest ih =>
    obtain ⟨k, w⟩ := kv
    show cacheKeys (if k = b then (k, v) :: rest else (k, w) :: cacheInsert rest b v) =
      if b ∈ cacheKeys ((k, w) :: rest) then cacheKeys ((k, w) :: rest)
      else cacheKeys ((k, w) :: rest) ++ [b]
    have hcons : ∀ (x : String × Coord) (l : Cache), cacheKeys (x :: l) = x.1 :: cacheKeys l :=
      fun x l => rfl
    by_cases hkb : k = b
    · rw [if_pos hkb, if_pos (by simp [hcons, hkb])]
      rfl
    · have hbk : ¬b = k := fun h => hkb h.symm
      rw [if_neg hkb, hcons, hcons, ih]
      by_cases hbr : b ∈ cacheKeys rest
      · rw [if_pos hbr, if_pos (by simp [hcons, hbr])]
      · rw [if_neg hbr, if_neg (by simp [hcons, hbk, hbr])]
        rfl

theorem mem_cacheKeys_insert {c : Cache} {b : String} {v : Coord} {a : String} :
    a ∈ cacheKeys (cacheInsert c b v) ↔ a ∈ cacheKeys c ∨ a = b := by
  rw [cacheKeys_insert]
  by_cases hb : b ∈ cacheKeys c
  · simp only [if_pos hb]
    constructor
    · exact Or.inl
    · rintro (h | h)
      · exact h
      · exact h ▸ hb
  · simp [if_neg hb]

theorem nodup_cacheKeys_insert {c : Cache} {b : String} {v : Coord}
    (h : (cacheKeys c).Nodup) : (cacheKeys (cacheInsert c b v)).Nodup := by
  rw [cacheKeys_insert]
  by_cases hb : b ∈ cacheKeys c
  · simpa [if_pos hb] using h
  · simp only [if_neg hb]
    simpa [List.nodup_append, hb] using h

theorem mem_cacheKeys_of_lookup {c : Cache} {a : String} {w : Coord}
    (h : cacheLookup c a = some w) : a ∈ cacheKeys c := by
  induction c with
  | nil => simp [cacheLookup] at h
  | cons kv rest ih =>
    obtain ⟨k, w'⟩ := kv
    by_cases hka : k = a
    · simp [cacheKeys, hka]
    · simp only [cacheLookup, hka, if_false] at h
      exact List.mem_cons_of_mem k (ih h)

theorem cacheLookup_of_mem_nodup {c : Cache} {kv : String × Coord}
    (hnd : (cacheKeys c).Nodup) (h : kv ∈ c) : cacheLookup c kv.1 = some kv.2 := by
  induction c with
  | nil => simp at h
  | cons kv' rest ih =>
    obtain ⟨k, w⟩ := kv'
    simp only [cacheKeys, List.map_cons, List.nodup_cons] at hnd
    rcases List.mem_cons.1 h with h1 | h1
    · subst h1; simp [cacheLookup]
    · have hk : k ≠ kv.1 := by
        intro he
        exact hnd.1 (he ▸ (List.mem_map.2 ⟨kv, h1, rfl⟩))
      simp [cacheLookup, hk, ih hnd.2 h1]

/-! ## Lemmas about one geocoding step -/

theorem cachedOk_congr {c c' : Cache} {a : String}
    (h : cacheLookup c a = cacheLookup c' a) : cachedOk c a = cachedOk c' a := by
  unfold cachedOk
  rw [h]

theorem geocodeOne_cached {osm arc : String → Option (ℚ × ℚ)} {city : String}
    {c : Cache} {a : String} (h : cachedOk c a = true) :
    geocodeOne osm arc city c a = (c, []) := by
  simp [geocodeOne, h]

theorem geocodeOne_not_cached_fst {osm arc : String → Option (ℚ × ℚ)} {city : String}
    {c : Cache} {a : String} (h : cachedOk c a = false) :
    (geocodeOne osm arc city c a).1 = cacheInsert c a (geocodeResult osm arc city a) := by
  unfold geocodeOne geocodeResult
  rw [h]
  cases h1 : (queryProviders osm arc (qFull city a)).1 <;> simp [h1, coordOfLoc]

theorem geocodeOne_lookup_other {osm arc : String → Option (ℚ × ℚ)} {city : String}
    {c : Cache} {a b : String} (h : a ≠ b) :
    cacheLookup (geocodeOne osm arc city c a).1 b = cacheLookup c b := by
  cases hc : cachedOk c a with
  | true => rw [geocodeOne_cached hc]
  | false => rw [geocodeOne_not_cached_fst hc, cacheLookup_insert, if_neg h]

theorem geocodeOne_keys_sub {osm arc : String → Option (ℚ × ℚ)} {city : String}
    {c : Cache} {a b : String} (h : b ∈ cacheKeys (geocodeOne osm arc city c a).1) :
    b ∈ cacheKeys c ∨ b = a := by
  cases hc : cachedOk c a with
  | true => rw [geocodeOne_cached hc] at h; exact Or.inl h
  | false =>
    rw [geocodeOne_not_cached_fst hc] at h
    exact mem_cacheKeys_insert.1 h

theorem geocodeOne_keys_mono {osm arc : String → Option (ℚ × ℚ)} {city : String}
    {c : Cache} {a b : String} (h : b ∈ cacheKeys c) :
    b ∈ cacheKeys (geocodeOne osm arc city c a).1 := by
  cases hc : cachedOk c a with
  | true => rw [geocodeOne_cached hc]; exact h
  | false =>
    rw [geocodeOne_not_cached_fst hc]
    exact mem_cacheKeys_insert.2 (Or.inl h)

theorem geocodeOne_keys_self {osm arc : String → Option (ℚ × ℚ)} {city : String}
    {c : Cache} {a : String} : a ∈ cacheKeys (geocodeOne osm arc city c a).1 := by
  cases hc : cachedOk c a with
  | true =>
    rw [geocodeOne_cached hc]
    unfold cachedOk at hc
    cases hl : cacheLookup c a with
    | none => rw [hl] at hc; simp at hc
    | some w => exact mem_cacheKeys_of_lookup hl
  | false =>
    rw [geocodeOne_not_cached_fst hc]
    exact mem_cacheKeys_insert.2 (Or.inr rfl)

theorem geocodeOne_nodup {osm arc : String → Option (ℚ × ℚ)} {city : String}
    {c : Cache} {a : String} (h : (cacheKeys c).Nodup) :
    (cacheKeys (geocodeOne osm arc city c a).1).Nodup := by
  cases hc : cachedOk c a with
  | true => rw [geocodeOne_cached hc]; exact h
  | false => rw [geocodeOne_not_cached_fst hc]; exact nodup_cacheKeys_insert h

/-! ## Lemmas about the geocoding loop -/

theorem geocodeFold_lookup_not_mem {osm arc : String → Option (ℚ × ℚ)} {city : String}
    {a : String} :
    ∀ {as : List String} {c : Cache} {t : List (Prov × String)}, a ∉ as →
      cacheLookup (geocodeFold osm arc city (c, t) as).1 a = cacheLookup c a := by
  intro as
  induction as with
  | nil => intro c t _; rfl
  | cons b rest ih =>
    intro c t h
    have hb : a ≠ b := fun he => h (he ▸ List.mem_cons_self b rest)
    have hr : a ∉ rest := fun hm => h (List.mem_cons_of_mem b hm)
    show cacheLookup (geocodeFold osm arc city
      ((geocodeOne osm arc city c b).1, t ++ (geocodeOne osm arc city c b).2) rest).1 a
        = cacheLookup c a
    rw [ih hr, geocodeOne_lookup_other (fun he => hb he.symm)]

theorem geocodeFold_lookup_mem {osm arc : String → Option (ℚ × ℚ)} {city : String}
    {a : String} :
    ∀ {as : List String} {c : Cache} {t : List (Prov × String)}, a ∈ as → as.Nodup →
      cacheLookup (geocodeFold osm arc city (c, t) as).1 a =
        if cachedOk c a then cacheLookup c a else some (geocodeResult osm arc city a) := by
  intro as
  induction as with
  | nil => intro c t h _; simp at h
  | cons b rest ih =>
    intro c t h hnd
    have hnd' := List.nodup_cons.1 hnd
    show cacheLookup (geocodeFold osm arc city
      ((geocodeOne osm arc city c b).1, t ++ (geocodeOne osm arc city c b).2) rest).1 a = _
    rcases List.mem_cons.1 h with hab | har
    · subst hab
      rw [geocodeFold_lookup_not_mem hnd'.1]
      cases hc : cachedOk c a with
      | true => rw [geocodeOne_cached hc]; simp
      | false =>
        rw [geocodeOne_not_cached_fst hc, cacheLookup_insert, if_pos rfl]
        simp
    · have hlook : cacheLookup (geocodeOne osm arc city c b).1 a = cacheLookup c a := by
        by_cases hab : b = a
        · exact absurd har (hab ▸ hnd'.1)
        · exact geocodeOne_lookup_other hab
      rw [ih har hnd'.2, hlook, cachedOk_congr hlook]

theorem geocodeFold_keys_sub {osm arc : String → Option (ℚ × ℚ)} {city : String}
    {b : String} :
    ∀ {as : List String} {c : Cache} {t : List (Prov × String)},
      b ∈ cacheKeys (geocodeFold osm arc city (c, t) as).1 →
        b ∈ cacheKeys c ∨ b ∈ as := by
  intro as
  induction as with
  | nil => intro c t h; exact Or.inl h
  | cons x rest ih =>
    intro c t h
    rcases ih h with h1 | h1
    · rcases geocodeOne_keys_sub h1 with h2 | h2
      · exact Or.inl h2
      · exact Or.inr (h2 ▸ List.mem_cons_self x rest)
    · exact Or.inr (List.mem_cons_of_mem x h1)

theorem geocodeFold_keys_mono {osm arc : String → Option (ℚ × ℚ)} {city : String}
    {b : String} :
    ∀ {as : List String} {c : Cache} {t : List (Prov × String)},
      b ∈ cacheKeys c → b ∈ cacheKeys (geocodeFold osm arc city (c, t) as).1 := by
  intro as
  induction as with
  | nil => intro c t h; exact h
  | cons x rest ih => intro c t h; exact ih (geocodeOne_keys_mono h)

theorem geocodeFold_keys_mem {osm arc : String → Option (ℚ × ℚ)} {city : String}
    {a : String} :
    ∀ {as : List String} {c : Cache} {t : List (Prov × String)},
      a ∈ as → a ∈ cacheKeys (geocodeFold osm arc city (c, t) as).1 := by
  intro as
  induction as with
  | nil => intro c t h; simp at h
  | cons x rest ih =>
    intro c t h
    rcases List.mem_cons.1 h with h1 | h1
    · subst h1
      show a ∈ cacheKeys (geocodeFold osm arc city
        ((geocodeOne osm arc city c a).1, t ++ (geocodeOne osm arc city c a).2) rest).1
      exact geocodeFold_keys_mono geocodeOne_keys_self
    · exact ih h1

theorem geocodeFold_nodup {osm arc : String → Option (ℚ × ℚ)} {city : String} :
    ∀ {as : List String} {c : Cache} {t : List (Prov × String)},
      (cacheKeys c).Nodup → (cacheKeys (geocodeFold osm arc city (c, t) as).1).Nodup := by
  intro as
  induction as with
  | nil => intro c t h; exact h
  | cons x rest ih => intro c t h; exact ih (geocodeOne_nodup h)

/-! ## Lemmas about `dropna().unique()` -/

theorem mem_uniqueFirstAux {a : String} :
    ∀ {l seen : List String}, a ∈ uniqueFirstAux seen l ↔ a ∈ l ∧ a ∉ seen := by
  intro l
  induction l with
  | nil => intro seen; simp [uniqueFirstAux]
  | cons b rest ih =>
    intro seen
    by_cases hb : b ∈ seen
    · rw [uniqueFirstAux, if_pos hb, ih]
      constructor
      · rintro ⟨h1, h2⟩; exact ⟨List.mem_cons_of_mem b h1, h2⟩
      · rintro ⟨h1, h2⟩
        rcases List.mem_cons.1 h1 with h3 | h3
        · exact absurd (h3 ▸ hb) h2
        · exact ⟨h3, h2⟩
    · rw [uniqueFirstAux, if_neg hb]
      constructor
      · intro h
        rcases List.mem_cons.1 h with h1 | h1
        · exact ⟨h1 ▸ List.mem_cons_self b rest, h1 ▸ hb⟩
        · have := ih.1 h1
          refine ⟨List.mem_cons_of_mem b this.1, fun hs => this.2 (List.mem_cons_of_mem b hs)⟩
      · rintro ⟨h1, h2⟩
        rcases List.mem_cons.1 h1 with h3 | h3
        · exact h3 ▸ List.mem_cons_self b _
        · by_cases hab : a = b
          · exact hab ▸ List.mem_cons_self b _
          · exact List.mem_cons_of_mem b (ih.2 ⟨h3, fun hs => by
              rcases List.mem_cons.1 hs with h4 | h4
              · exact hab h4
              · exact h2 h4⟩)

theorem nodup_uniqueFirstAux :
    ∀ {l seen : List String}, (uniqueFirstAux seen l).Nodup := by
  intro l
  induction l with
  | nil => intro seen; simp [uniqueFirstAux]
  | cons b rest ih =>
    intro seen
    by_cases hb : b ∈ seen
    · rw [uniqueFirstAux, if_pos hb]; exact ih
    · rw [uniqueFirstAux, if_neg hb]
      refine List.nodup_cons.2 ⟨fun hm => ?_, ih⟩
      exact (mem_uniqueFirstAux.1 hm).2 (List.mem_cons_self b seen)

theorem mem_uniqueFirst {a : String} {l : List String} : a ∈ uniqueFirst l ↔ a ∈ l := by
  rw [uniqueFirst, mem_uniqueFirstAux]
  simp

theorem nodup_uniqueFirst {l : List String} : (uniqueFirst l).Nodup :=
  nodup_uniqueFirstAux

/-! ## Fixed points of the `normalize_address` stages

Predicates describing strings that none of the substitution stages can
change: no case-insensitive `ul` pair, no case-insensitive key triple, all
whitespace already collapsed to single spaces, ASCII only. -/

theorem band_left {a b : Bool} (h : (a && b) = true) : a = true := by
  simp only [Bool.and_eq_true] at h
  exact h.1

theorem band_right {a b : Bool} (h : (a && b) = true) : b = true := by
  simp only [Bool.and_eq_true] at h
  exact h.2

theorem bor_cases {a b : Bool} (h : (a || b) = true) : a = true ∨ b = true := by
  simp only [Bool.or_eq_true] at h
  exact h

def allAscii (l : List Char) : Bool := l.all (fun c => decide (c.toNat < 128))

def noUlPair : List Char → Bool
  | c1 :: c2 :: r => !(c1.toLower == 'u' && c2.toLower == 'l') && noUlPair (c2 :: r)
  | _ => true

def noKeyTriple (k1 k2 k3 : Char) : List Char → Bool
  | c1 :: c2 :: c3 :: r =>
    !(c1.toLower == k1 && c2.toLower == k2 && c3.toLower == k3) &&
      noKeyTriple k1 k2 k3 (c2 :: c3 :: r)
  | _ => true

def wsCollapsed : List Char → Bool
  | [] => true
  | [c] => !isSpaceChar c || c == ' '
  | c1 :: c2 :: r => (!isSpaceChar c1 || (c1 == ' ' && !isSpaceChar c2)) && wsCollapsed (c2 :: r)

theorem noUlPair_tail {c : Char} {cs : List Char} (h : noUlPair (c :: cs) = true) :
    noUlPair cs = true := by
  cases cs with
  | nil => rfl
  | cons c2 r => exact band_right h

theorem subUlGo_eq_self {l : List Char} (h : noUlPair l = true) :
    ∀ (n : Nat) (pw : Bool), subUlGo n pw l = l := by
  induction l with
  | nil => intro n pw; cases n <;> rfl
  | cons c cs ih =>
    intro n pw
    cases n with
    | zero => rfl
    | succ m =>
      have htail := noUlPair_tail h
      have htry : tryUl (c :: cs) = none := by
        cases cs with
        | nil => rfl
        | cons c2 r =>
          have hcond := band_left h
          simp only [tryUl]
          rw [if_neg]
          intro hcc
          rw [hcc] at hcond
          simp at hcond
      cases pw with
      | true => simp only [subUlGo, if_pos]; rw [ih htail]
      | false =>
        simp only [subUlGo, Bool.false_eq_true, if_false, htry]
        rw [ih htail]

theorem subUl_eq_self {l : List Char} (h : noUlPair l = true) : subUl l = l :=
  subUlGo_eq_self h l.length false

theorem noKeyTriple_tail {k1 k2 k3 c : Char} {cs : List Char}
    (h : noKeyTriple k1 k2 k3 (c :: cs) = true) : noKeyTriple k1 k2 k3 cs = true := by
  cases cs with
  | nil => rfl
  | cons c2 r =>
    cases r with
    | nil => rfl
    | cons c3 r2 => exact band_right h

theorem subKeyGo_eq_self {k1 k2 k3 : Char} {l : List Char}
    (h : noKeyTriple k1 k2 k3 l = true) :
    ∀ (n : Nat) (pw : Bool), subKeyGo k1 k2 k3 n pw l = l := by
  induction l with
  | nil => intro n pw; cases n <;> rfl
  | cons c cs ih =>
    intro n pw
    cases n with
    | zero => rfl
    | succ m =>
      have htail := noKeyTriple_tail h
      have htry : tryKey k1 k2 k3 (c :: cs) = none := by
        cases cs with
        | nil => rfl
        | cons c2 r =>
          cases r with
          | nil => rfl
          | cons c3 r2 =>
            have hcond := band_left h
            simp only [tryKey]
            rw [if_neg]
            intro hcc
            rw [hcc] at hcond
            simp at hcond
      cases pw with
      | true => simp only [subKeyGo, if_pos]; rw [ih htail]
      | false =>
        simp only [subKeyGo, Bool.false_eq_true, if_false, htry]
        rw [ih htail]

theorem subKey_eq_self {k1 k2 k3 : Char} {l : List Char}
    (h : noKeyTriple k1 k2 k3 l = true) : subKey k1 k2 k3 l = l :=
  subKeyGo_eq_self h l.length false

theorem collapseWs_eq_self : ∀ {l : List Char}, wsCollapsed l = true → collapseWs l = l := by
  intro l
  induction l with
  | nil => intro _; rfl
  | cons c cs ih =>
    intro h
    cases cs with
    | nil =>
      simp only [wsCollapsed] at h
      simp only [collapseWs]
      rcases bor_cases h with h1 | h1
      · rw [if_neg]
        simp at h1
        simp [h1]
      · have : c = ' ' := by simpa using h1
        subst this
        split <;> rfl
    | cons c2 r =>
      rw [show wsCollapsed (c :: c2 :: r) = ((!isSpaceChar c || (c == ' ' && !isSpaceChar c2)) && wsCollapsed (c2 :: r)) from rfl] at h
      have h2 := ih (band_right h)
      rcases bor_cases (band_left h) with h1 | h1
      · have h1' : isSpaceChar c = false := by simpa using h1
        simp only [collapseWs, h1', Bool.false_and, Bool.false_eq_true, if_false]
        rw [h2]
      · have hc : c = ' ' := by simpa using band_left h1
        have hc2 : isSpaceChar c2 = false := by simpa using band_right h1
        subst hc
        simp only [collapseWs, hc2, Bool.and_false, Bool.false_eq_true, if_false]
        rw [h2]
        simp [isSpaceChar]

theorem unidecodeList_eq_self : ∀ {l : List Char}, allAscii l = true → unidecodeList l = l := by
  intro l
  induction l with
  | nil => intro _; rfl
  | cons c cs ih =>
    intro h
    simp only [allAscii, List.all_cons, Bool.and_eq_true] at h
    have hc : unidecodeChar c = [c] := by
      unfold unidecodeChar
      rw [if_pos (by simpa using h.1)]
    show unidecodeChar c ++ unidecodeList cs = c :: cs
    rw [hc, ih h.2]
    rfl

theorem dropWhile_dropWhile (p : Char → Bool) (l : List Char) :
    (l.dropWhile p).dropWhile p = l.dropWhile p := by
  induction l with
  | nil => rfl
  | cons c cs ih =>
    by_cases h : p c
    · simp [List.dropWhile_cons, h, ih]
    · simp [List.dropWhile_cons, h]

theorem dropWhile_cons_self {p : Char → Bool} {c : Char} {t : List Char}
    (h : (c :: t).dropWhile p = c :: t) : p c = false := by
  by_cases hc : p c
  · exfalso
    rw [List.dropWhile_cons, if_pos hc] at h
    have hle := (List.dropWhile_suffix (l := t) (p := p)).sublist.length_le
    rw [h] at hle
    simp at hle
  · simpa using hc

theorem stripChars_noLead (l : List Char) :
    (stripChars l).dropWhile isSpaceChar = stripChars l := by
  obtain ⟨u, hu⟩ := List.dropWhile_suffix (l := (l.dropWhile isSpaceChar).reverse)
    (p := isSpaceChar)
  rcases hm : stripChars l with _ | ⟨c, cs⟩
  · rfl
  · have hy : l.dropWhile isSpaceChar = c :: (cs ++ u.reverse) := by
      have : l.dropWhile isSpaceChar =
          ((l.dropWhile isSpaceChar).reverse.dropWhile isSpaceChar).reverse ++ u.reverse := by
        rw [← List.reverse_append, hu, List.reverse_reverse]
      rw [this]
      have : ((l.dropWhile isSpaceChar).reverse.dropWhile isSpaceChar).reverse =
          stripChars l := rfl
      rw [this, hm]
      rfl
    have hself : (l.dropWhile isSpaceChar).dropWhile isSpaceChar = l.dropWhile isSpaceChar :=
      dropWhile_dropWhile isSpaceChar l
    rw [hy] at hself
    have hc := dropWhile_cons_self hself
    rw [List.dropWhile_cons, if_neg (by simp [hc])]

theorem stripChars_idem (l : List Char) : stripChars (stripChars l) = stripChars l := by
  show (((stripChars l).dropWhile isSpaceChar).reverse.dropWhile isSpaceChar).reverse =
    stripChars l
  rw [stripChars_noLead l]
  have hrev : (stripChars l).reverse = (l.dropWhile isSpaceChar).reverse.dropWhile isSpaceChar := by
    rw [stripChars, List.reverse_reverse]
  rw [hrev, dropWhile_dropWhile]
  rfl

/-! ## Concrete provider oracles used by witnesses -/

/-- A provider that finds nothing (every lookup fails). -/
def noProvider : String → Option (ℚ × ℚ) := fun _ => none

/-- A provider that returns a fixed location for every query. -/
def constProvider : String → Option (ℚ × ℚ) := fun _ => some (1, 2)

/-! ## Claims -/

/-- C10 counterexample: `normalize_address` is not idempotent. On the input
`"ulul"` the first pass removes only the first `ul` (the second occurrence
has no word boundary before it in the original string), leaving `"ul"`; the
second pass then removes that too, so
`normalize_address (normalize_address "ulul") = "" ≠ "ul" = normalize_address "ulul"`. -/
theorem normalize_address_not_idempotent :
    normalize_address (normalize_address "ulul".data) ≠ normalize_address "ulul".data := by
  decide

/-- C10 amended: `normalize_address` is idempotent on every input whose
normalized form is a fixed point of each substitution stage: no
case-insensitive `ul` letter pair, no case-insensitive `lok` or `paw`
triple, whitespace already collapsed to single spaces, and ASCII only
(so the `unidecode` stage is the identity). The strip stages need no
hypothesis because a normalized string is already stripped. -/
theorem normalize_address_idem_of_normal (s : List Char)
    (h1 : noUlPair (normalize_address s) = true)
    (h2 : noKeyTriple 'l' 'o' 'k' (normalize_address s) = true)
    (h3 : noKeyTriple 'p' 'a' 'w' (normalize_address s) = true)
    (h4 : wsCollapsed (normalize_address s) = true)
    (h5 : allAscii (normalize_address s) = true) :
    normalize_address (normalize_address s) = normalize_address s := by
  have hstrip : stripChars (normalize_address s) = normalize_address s :=
    stripChars_idem (unidecodeList (collapseWs
      (subKey 'p' 'a' 'w' (subKey 'l' 'o' 'k' (subUl (stripChars s))))))
  show stripChars (unidecodeList (collapseWs (subKey 'p' 'a' 'w' (subKey 'l' 'o' 'k'
    (subUl (stripChars (normalize_address s))))))) = normalize_address s
  rw [hstrip, subUl_eq_self h1, subKey_eq_self h2, subKey_eq_self h3,
    collapseWs_eq_self h4, unidecodeList_eq_self h5, hstrip]

/-- C10 amended, witness: a realistic address whose normalization
(`"Piotrkowska 104"`) satisfies the fixed-point hypotheses. -/
theorem normalize_address_idem_of_normal_witness :
    normalize_address (normalize_address "ul. Piotrkowska 104 lok. 5".data) =
      normalize_address "ul. Piotrkowska 104 lok. 5".data :=
  normalize_address_idem_of_normal "ul. Piotrkowska 104 lok. 5".data
    (by decide) (by decide) (by decide) (by decide) (by decide)

/-- C8: when the input spreadsheet already has both a `lat` and a `lon`
column (lines 198-200 of `main`), the geocoding stage is skipped entirely:
the existing columns are passed through unchanged, no provider is called,
and the cache file is neither read nor written. -/
theorem lat_lon_present_skips_geocoding (osm arc : String → Option (ℚ × ℚ))
    (cacheRows : List SaveRow) (addrCol : List (Option String))
    (la lo : List (Option ℚ)) :
    main_geocode_step osm arc cacheRows addrCol (some la) (some lo) =
      ⟨la, lo, [], false, false⟩ := rfl

/-- C3: the address-to-coordinate assignment of lines 60-61 is a pure
function of the final cache: any two rows of the input column holding the
same address string receive the same `(lat, lon)` pair, namely the cached
coordinate pair of that address. -/
theorem same_address_same_coords (osm arc : String → Option (ℚ × ℚ))
    (city : String) (cache0 : Cache) (col : List (Option String)) (i j : Nat) (a : String)
    (hi : col[i]? = some (some a)) (hj : col[j]? = some (some a)) :
    (geocode_addresses osm arc city cache0 col).2.2[i]? =
      some ((cacheLookup (geocode_addresses osm arc city cache0 col).1 a).getD (none, none))
    ∧ (geocode_addresses osm arc city cache0 col).2.2[i]? =
      (geocode_addresses osm arc city cache0 col).2.2[j]? := by
  have hmap : ∀ n : Nat, col[n]? = some (some a) →
      (geocode_addresses osm arc city cache0 col).2.2[n]? =
        some ((cacheLookup (geocode_addresses osm arc city cache0 col).1 a).getD
          (none, none)) := by
    intro n hn
    show (assignLatLon (geocode_addresses osm arc city cache0 col).1 col)[n]? = _
    rw [assignLatLon, List.getElem?_map, hn]
    rfl
  exact ⟨hmap i hi, (hmap i hi).trans (hmap j hj).symm⟩

/-- C3 witness: two rows with the same address string get the same
coordinates — the cached pair of that address. -/
theorem same_address_same_coords_witness :
    (geocode_addresses constProvider noProvider "X" [] [some "A 1", some "A 1"]).2.2[0]? =
      some ((cacheLookup
        (geocode_addresses constProvider noProvider "X" [] [some "A 1", some "A 1"]).1
          "A 1").getD (none, none))
    ∧ (geocode_addresses constProvider noProvider "X" [] [some "A 1", some "A 1"]).2.2[0]? =
      (geocode_addresses constProvider noProvider "X" [] [some "A 1", some "A 1"]).2.2[1]? :=
  same_address_same_coords constProvider noProvider "X" [] [some "A 1", some "A 1"] 0 1
    "A 1" rfl rfl

/-- C4: for an address the cache does not satisfy (line 48 fails), the
provider calls of lines 50-56 happen in the fixed fallback order: OSM on
the normalized full address first; ArcGIS on the full address only if OSM
found nothing; and only if both found nothing, OSM then ArcGIS again on the
normalized street-only address (the raw address with its trailing house
number stripped by line 53). -/
theorem provider_fallback_order (osm arc : String → Option (ℚ × ℚ)) (city : String)
    (cache : Cache) (a : String) (h : cachedOk cache a = false) :
    ((osm (qFull city a)).isSome →
      (geocodeOne osm arc city cache a).2 = [(Prov.osm, qFull city a)])
    ∧ (osm (qFull city a) = none → (arc (qFull city a)).isSome →
      (geocodeOne osm arc city cache a).2 =
        [(Prov.osm, qFull city a), (Prov.arc, qFull city a)])
    ∧ (osm (qFull city a) = none → arc (qFull city a) = none →
      (osm (qStreet city a)).isSome →
      (geocodeOne osm arc city cache a).2 =
        [(Prov.osm, qFull city a), (Prov.arc, qFull city a), (Prov.osm, qStreet city a)])
    ∧ (osm (qFull city a) = none → arc (qFull city a) = none →
      osm (qStreet city a) = none →
      (geocodeOne osm arc city cache a).2 =
        [(Prov.osm, qFull city a), (Prov.arc, qFull city a),
          (Prov.osm, qStreet city a), (Prov.arc, qStreet city a)]) := by
  refine ⟨?_, ?_, ?_, ?_⟩
  · intro h1
    obtain ⟨l, hl⟩ := Option.isSome_iff_exists.1 h1
    simp [geocodeOne, h, queryProviders, hl]
  · intro h1 h2
    obtain ⟨l, hl⟩ := Option.isSome_iff_exists.1 h2
    simp [geocodeOne, h, queryProviders, h1, hl]
  · intro h1 h2 h3
    obtain ⟨l, hl⟩ := Option.isSome_iff_exists.1 h3
    simp [geocodeOne, h, queryProviders, h1, h2, hl]
  · intro h1 h2 h3
    simp [geocodeOne, h, queryProviders, h1, h2, h3]

/-- C4 witness: with providers that find nothing, an uncached address
produces exactly the four calls in fallback order, with the normalized
query strings (`"Abc 5, Lodz, Polska"`, then street-only `"Abc, Lodz, Polska"`). -/
theorem provider_fallback_order_witness :
    (geocodeOne noProvider noProvider "Lodz, Polska" [] "Abc 5").2 =
      [(Prov.osm, "Abc 5, Lodz, Polska"), (Prov.arc, "Abc 5, Lodz, Polska"),
        (Prov.osm, "Abc, Lodz, Polska"), (Prov.arc, "Abc, Lodz, Polska")] := by
  have h := (provider_fallback_order noProvider noProvider "Lodz, Polska" [] "Abc 5"
    rfl).2.2.2 rfl rfl rfl
  rw [h]
  rfl

theorem queryProviders_trace_head (osm arc : String → Option (ℚ × ℚ)) (q : String) :
    (queryProviders osm arc q).2.head? = some (Prov.osm, q) := by
  unfold queryProviders
  cases osm q <;> simp

theorem geocodeOne_trace_head {osm arc : String → Option (ℚ × ℚ)} {city : String}
    {cache : Cache} {a : String} (hc : cachedOk cache a = false) :
    (geocodeOne osm arc city cache a).2.head? = some (Prov.osm, qFull city a) := by
  unfold geocodeOne
  rw [hc]
  simp only [Bool.false_eq_true, if_false]
  cases h1 : (queryProviders osm arc (qFull city a)).1
  · simp only [h1]
    rcases h2 : (queryProviders osm arc (qFull city a)).2 with _ | ⟨x, xs⟩
    · have := queryProviders_trace_head osm arc (qFull city a)
      rw [h2] at this
      simp at this
    · have := queryProviders_trace_head osm arc (qFull city a)
      rw [h2] at this
      simpa using this
  · simp only [h1]
    exact queryProviders_trace_head osm arc (qFull city a)

/-- C9: a cached success is final while a cached failure is retried. If the
loaded cache holds a non-NaN latitude for an address, the loop body
(lines 48-56) leaves the cache unchanged and calls no provider; if it holds
a NaN latitude, the body re-attempts geocoding — the first provider call of
the step is OSM on the normalized full address, and the cache entry is
overwritten with the fresh result. -/
theorem cached_success_final_cached_failure_retried
    (osm arc : String → Option (ℚ × ℚ)) (city : String) (cache : Cache) (a : String)
    (la : ℚ) (lo lo' : Option ℚ) :
    (cacheLookup cache a = some (some la, lo) →
      geocodeOne osm arc city cache a = (cache, []))
    ∧ (cacheLookup cache a = some (none, lo') →
      (geocodeOne osm arc city cache a).1 =
        cacheInsert cache a (geocodeResult osm arc city a)
      ∧ (geocodeOne osm arc city cache a).2.head? = some (Prov.osm, qFull city a)) := by
  constructor
  · intro h
    exact geocodeOne_cached (by simp [cachedOk, h])
  · intro h
    have hc : cachedOk cache a = false := by simp [cachedOk, h]
    exact ⟨geocodeOne_not_cached_fst hc, geocodeOne_trace_head hc⟩

/-- C9 witness: with a cached success `("A", (1, 2))` the step is a no-op
with no provider call; with a cached failure `("B", (NaN, NaN))` the step
re-queries (OSM first) and overwrites the entry. -/
theorem cached_success_final_cached_failure_retried_witness :
    (geocodeOne noProvider noProvider "X" [("A", (some 1, some 2))] "A" =
      ([("A", (some 1, some 2))], []))
    ∧ ((geocodeOne noProvider noProvider "X" [("B", (none, none))] "B").1 =
        cacheInsert [("B", (none, none))] "B" (geocodeResult noProvider noProvider "X" "B")
      ∧ (geocodeOne noProvider noProvider "X" [("B", (none, none))] "B").2.head? =
        some (Prov.osm, qFull "X" "B")) :=
  ⟨(cached_success_final_cached_failure_retried noProvider noProvider "X"
      [("A", (some 1, some 2))] "A" 1 (some 2) none).1 rfl,
   (cached_success_final_cached_failure_retried noProvider noProvider "X"
      [("B", (none, none))] "B" 1 (some 2) none).2 rfl⟩

theorem load_cache_keys_sub {k : String} :
    ∀ {rows : List SaveRow} {c : Cache},
      k ∈ cacheKeys (rows.foldl (fun c r => cacheInsert c r.address (r.lat, r.lon)) c) →
        k ∈ cacheKeys c ∨ k ∈ rows.map SaveRow.address := by
  intro rows
  induction rows with
  | nil => intro c h; exact Or.inl h
  | cons r rest ih =>
    intro c h
    rcases ih h with h1 | h1
    · rcases mem_cacheKeys_insert.1 h1 with h2 | h2
      · exact Or.inl h2
      · exact Or.inr (by simp [h2])
    · exact Or.inr (by simp [h1])

/-- C2: every key of the geocoding cache is a raw address string. Loading
(lines 37-39) keys the dict by the CSV's `address` column; geocoding
(lines 47-56) only ever inserts under the raw `addr` iterated from the
input's address column — never under `normalize_address addr`; saving
(line 64) writes each dict key unchanged into the `address` column. -/
theorem cache_keyed_by_raw_address (rows : List SaveRow)
    (osm arc : String → Option (ℚ × ℚ)) (city : String) (cache0 : Cache)
    (col : List (Option String)) (ts : String) :
    (∀ k, k ∈ cacheKeys (load_cache rows) → k ∈ rows.map SaveRow.address)
    ∧ (∀ k, k ∈ cacheKeys (geocode_addresses osm arc city cache0 col).1 →
        k ∈ cacheKeys cache0 ∨ some k ∈ col)
    ∧ (save_cache cache0 ts).map SaveRow.address = cacheKeys cache0 := by
  refine ⟨?_, ?_, ?_⟩
  · intro k h
    rcases load_cache_keys_sub h with h1 | h1
    · simp [cacheKeys] at h1
    · exact h1
  · intro k h
    have h' : k ∈ cacheKeys (geocodeFold osm arc city (cache0, [])
        (uniqueFirst (col.filterMap id))).1 := h
    rcases geocodeFold_keys_sub h' with h1 | h1
    · exact Or.inl h1
    · obtain ⟨x, hx, hxk⟩ := List.mem_filterMap.1 (mem_uniqueFirst.1 h1)
      have hxe : x = some k := hxk
      exact Or.inr (hxe ▸ hx)
  · rw [save_cache, List.map_map]
    rfl

/-- C2 witness: a cache loaded from one CSV row is keyed by that row's raw
address, and geocoding an input column puts its raw address (here one with
an `ul.` prefix and diacritics, so raw ≠ normalized) among the keys coming
from the input column. -/
theorem cache_keyed_by_raw_address_witness :
    ("ul. Łąkowa 1" ∈
      ([⟨"ul. Łąkowa 1", some 1, some 2, "t"⟩] : List SaveRow).map SaveRow.address)
    ∧ ("ul. Żabia 5" ∈ cacheKeys ([] : Cache) ∨
        some "ul. Żabia 5" ∈ [some "ul. Żabia 5"]) :=
  ⟨(cache_keyed_by_raw_address [⟨"ul. Łąkowa 1", some 1, some 2, "t"⟩]
      noProvider noProvider "X" [] [] "t").1 "ul. Łąkowa 1" (by decide),
   (cache_keyed_by_raw_address [] noProvider noProvider "X" []
      [some "ul. Żabia 5"] "t").2.1 "ul. Żabia 5" (by decide)⟩

/-- C6: after `geocode_addresses` returns, the saved cache CSV (line 59
calls `_save_cache`, line 64) has exactly one row per cached address, in
which the `address` column is the dict key and the `lat`/`lon` columns are
that address's cached coordinates; and the cache contains every unique
non-null address of the input's address column. The only hypothesis is
that the loaded cache had no duplicate keys, which holds for any cache
built as a Python dict. -/
theorem cache_csv_complete (osm arc : String → Option (ℚ × ℚ)) (city : String)
    (cache0 : Cache) (col : List (Option String)) (ts : String)
    (hnd : (cacheKeys cache0).Nodup) :
    ((save_cache (geocode_addresses osm arc city cache0 col).1 ts).map SaveRow.address =
      cacheKeys (geocode_addresses osm arc city cache0 col).1)
    ∧ (cacheKeys (geocode_addresses osm arc city cache0 col).1).Nodup
    ∧ (∀ a, some a ∈ col → a ∈ cacheKeys (geocode_addresses osm arc city cache0 col).1)
    ∧ (∀ r, r ∈ save_cache (geocode_addresses osm arc city cache0 col).1 ts →
        cacheLookup (geocode_addresses osm arc city cache0 col).1 r.address =
          some (r.lat, r.lon)) := by
  have hnodup : (cacheKeys (geocode_addresses osm arc city cache0 col).1).Nodup :=
    geocodeFold_nodup hnd
  refine ⟨?_, hnodup, ?_, ?_⟩
  · rw [save_cache, List.map_map]
    rfl
  · intro a ha
    have hmem : a ∈ uniqueFirst (col.filterMap id) :=
      mem_uniqueFirst.2 (List.mem_filterMap.2 ⟨some a, ha, rfl⟩)
    exact geocodeFold_keys_mem hmem
  · intro r hr
    obtain ⟨kv, hkv, hr1⟩ := List.mem_map.1 hr
    have := cacheLookup_of_mem_nodup hnodup hkv
    rw [← hr1] at *
    simpa using this

/-- C6 witness: with an empty initial cache and one input address, the
address ends up among the saved cache keys. -/
theorem cache_csv_complete_witness :
    "Abc 5" ∈ cacheKeys (geocode_addresses noProvider noProvider "X" [] [some "Abc 5"]).1 :=
  (cache_csv_complete noProvider noProvider "X" [] [some "Abc 5"] "t"
    (by decide)).2.2.1 "Abc 5" (by decide)

theorem zipWith_self_map {α β γ : Type} (g : α → β → γ) (f : α → β) (l : List α) :
    List.zipWith g l (l.map f) = l.map (fun x => g x (f x)) := by
  induction l with
  | nil => rfl
  | cons a as ih => simp [ih]

theorem mkPtRows_assign (c : Cache) (col : List (Option String)) :
    mkPtRows col (assignLatLon c col) =
      col.map (fun a? => ⟨a?,
        (match a? with
          | some a => (cacheLookup c a).getD (none, none)
          | none => ((none : Option ℚ), (none : Option ℚ))).1,
        (match a? with
          | some a => (cacheLookup c a).getD (none, none)
          | none => ((none : Option ℚ), (none : Option ℚ))).2⟩) := by
  rw [mkPtRows, assignLatLon, zipWith_self_map]

theorem mem_to_gdf {rows : List PtRow} {x : PtRow × (ℚ × ℚ)} (h : x ∈ to_gdf rows) :
    x.1 ∈ rows ∧ x.1.lat = some x.2.2 ∧ x.1.lon = some x.2.1 := by
  obtain ⟨r, hr, hfr⟩ := List.mem_filterMap.1 h
  cases hlo : r.lon with
  | none => rw [hlo] at hfr; simp at hfr
  | some lo =>
    cases hla : r.lat with
    | none => rw [hlo, hla] at hfr; simp at hfr
    | some la =>
      rw [hlo, hla] at hfr
      simp only [Option.some.injEq] at hfr
      rw [← hfr]
      exact ⟨hr, hla, hlo⟩

theorem mem_spatial_join {pts : List (PtRow × (ℚ × ℚ))}
    {polys : List (String × ((ℚ × ℚ) → Bool))}
    {x : (PtRow × (ℚ × ℚ)) × Option String} (h : x ∈ spatial_join pts polys) :
    x.1 ∈ pts := by
  obtain ⟨p, hp, hx⟩ := List.mem_flatMap.1 h
  rcases hpf : polys.filter (fun poly => poly.2 p.2) with _ | ⟨m, ms⟩
  · rw [hpf] at hx
    simp only [List.mem_singleton] at hx
    rw [hx]
    exact hp
  · rw [hpf] at hx
    obtain ⟨m', hm', hx'⟩ := List.mem_map.1 hx
    rw [← hx']
    exact hp

/-- C1: an address for which no provider returns a location (all four
fallback queries fail) is recorded in the cache and in the dataframe's
lat/lon columns as missing coordinates (`NaN`, modelled `none`); and at the
spatial-join stage every row with a missing coordinate is silently dropped
(`to_gdf`, lines 67-68, gives it no geometry and `dropna` removes it before
the join of lines 70-72), all functions being total — no error is raised.
The third conjunct states that no row of the join output lacks coordinates
and no row of the join output carries the failed address. -/
theorem failed_lookup_recorded_nan_and_dropped
    (osm arc : String → Option (ℚ × ℚ)) (city : String) (cache0 : Cache)
    (col : List (Option String)) (polys : List (String × ((ℚ × ℚ) → Bool))) (a : String)
    (ha : some a ∈ col) (hc : cachedOk cache0 a = false)
    (h1 : osm (qFull city a) = none) (h2 : arc (qFull city a) = none)
    (h3 : osm (qStreet city a) = none) (h4 : arc (qStreet city a) = none) :
    cacheLookup (geocode_addresses osm arc city cache0 col).1 a = some (none, none)
    ∧ (∀ i : Nat, col[i]? = some (some a) →
        (geocode_addresses osm arc city cache0 col).2.2[i]? =
          some ((none : Option ℚ), (none : Option ℚ)))
    ∧ (∀ x ∈ spatial_join (to_gdf (mkPtRows col
          (geocode_addresses osm arc city cache0 col).2.2)) polys,
        x.1.1.lat.isSome ∧ x.1.1.lon.isSome ∧ x.1.1.addr ≠ some a) := by
  have hres : geocodeResult osm arc city a = (none, none) := by
    simp [geocodeResult, queryProviders, h1, h2, h3, h4, coordOfLoc]
  have hmem : a ∈ uniqueFirst (col.filterMap id) :=
    mem_uniqueFirst.2 (List.mem_filterMap.2 ⟨some a, ha, rfl⟩)
  have hlook : cacheLookup (geocode_addresses osm arc city cache0 col).1 a =
      some (none, none) := by
    show cacheLookup (geocodeFold osm arc city (cache0, [])
      (uniqueFirst (col.filterMap id))).1 a = _
    rw [geocodeFold_lookup_mem hmem nodup_uniqueFirst, hc, hres]
    simp
  refine ⟨hlook, ?_, ?_⟩
  · intro i hi
    show (assignLatLon (geocode_addresses osm arc city cache0 col).1 col)[i]? = _
    rw [assignLatLon, List.getElem?_map, hi]
    simp [hlook]
  · intro x hx
    obtain ⟨hmemg, hlat, hlon⟩ := mem_to_gdf (mem_spatial_join hx)
    refine ⟨by simp [hlat], by simp [hlon], ?_⟩
    intro haddr
    rw [show (geocode_addresses osm arc city cache0 col).2.2 =
        assignLatLon (geocode_addresses osm arc city cache0 col).1 col from rfl,
      mkPtRows_assign] at hmemg
    obtain ⟨a?, ha2, hxe⟩ := List.mem_map.1 hmemg
    rw [← hxe] at haddr hlat
    simp only at haddr
    rw [haddr] at hlat
    simp only [hlook] at hlat
    simp at hlat

/-- C1 witness: one failed address with no polygons; the hypotheses are
discharged at `noProvider`, which returns no location for any query. -/
theorem failed_lookup_recorded_nan_and_dropped_witness :
    cacheLookup (geocode_addresses noProvider noProvider "X" [] [some "Abc 5", none]).1
      "Abc 5" = some (none, none) :=
  (failed_lookup_recorded_nan_and_dropped noProvider noProvider "X" []
    [some "Abc 5", none] [] "Abc 5" (by decide) rfl rfl rfl rfl rfl).1

theorem sidebar_remote_ref_aux (counts : List (String × Int)) :
    containsSeg (sidebarTailB.data ++ urlJquery.data) (build_sidebar counts) = true := by
  unfold build_sidebar
  rw [show sidebarTailB.data ++ (urlJquery.data ++ (sidebarTailC.data ++
      (urlDataTablesJs.data ++ sidebarTailD.data))) =
    (sidebarTailB.data ++ urlJquery.data) ++ (sidebarTailC.data ++
      (urlDataTablesJs.data ++ sidebarTailD.data)) from (List.append_assoc _ _ _).symm]
  apply containsSeg_append_left
  apply containsSeg_append_left
  apply containsSeg_append_left
  apply containsSeg_append_left
  exact containsSeg_of_segAt (segAt_append_self _ _)

/-- C5 counterexample: the output HTML is not free of external resources.
The sidebar that `build_map` embeds into every rendered map (line 180)
contains, already for an empty counts table, the segment
`'>\n<script src='https://code.jquery.com/jquery-3.7.0.min.js` — a script
element loaded from a remote CDN (lines 89-91 also load the DataTables CSS
and JS remotely), so the written file depends on remote resources to
function, contradicting the claim's "does not depend on any other local or
remote resource". -/
theorem sidebar_references_remote_script :
    sidebarTailB.data ++ urlJquery.data =
      "\x27>\n<script src=\x27https://code.jquery.com/jquery-3.7.0.min.js".data
    ∧ containsSeg (sidebarTailB.data ++ urlJquery.data) (build_sidebar []) = true :=
  ⟨rfl, sidebar_remote_ref_aux []⟩

/-- C5 amended: the program writes a single HTML output file, at the given
`--out` path, with the map widget embedded — but the file references remote
CDN resources (the jQuery script shown here, plus the DataTables CSS and
JS), so it is self-contained only as a single file and needs remote
resources to function fully. -/
theorem single_output_file_with_remote_refs (out : String) (counts : List (String × Int)) :
    build_map_files out = [out]
    ∧ containsSeg (sidebarTailB.data ++ urlJquery.data) (build_sidebar counts) = true :=
  ⟨rfl, sidebar_remote_ref_aux counts⟩

end LodzMap
